import Mathlib

/-!
Verification development for the tc_reader repository (Go).

The definitions below are a shallow embedding of the Go sources:
  - `lib/oid_sorter.go` : the `oidSorter.Less` comparator over dotted OID strings,
  - `lib/snmp.go`       : the `snmp` store (`erase`, `addSnmpData`, `addGenericData`,
                          `addUserData`, `addData`, `snmpGet`, `snmpGetNext`,
                          `printData`, `Listen`) and the `stdinTalker.getLine` reader,
  - `lib/parser.go`     : the `tcParser` two-phase line parser (`parseData`) and the
                          per-cycle driver (`parseTc` / `executeTc`).

Go machine integers are modelled as `Int`/`Nat` with explicit clamping where the
Go standard library clamps (`strconv.ParseInt`).  Go maps are modelled as
association lists with replace-on-insert semantics.  Fallible reads and command
executions are modelled with `Option`.
-/

namespace TcReader

/-- Go map read (`v, ok := m[k]`): first binding wins; our `mapSet` keeps keys unique. -/
def mapGet {α : Type} (m : List (String × α)) (k : String) : Option α :=
  match m with
  | [] => none
  | (k', v) :: rest => if k' = k then some v else mapGet rest k

/-- Go map write (`m[k] = v`): replaces the existing binding for `k` or appends one. -/
def mapSet {α : Type} (m : List (String × α)) (k : String) (v : α) : List (String × α) :=
  match m with
  | [] => [(k, v)]
  | (k', v') :: rest => if k' = k then (k, v) :: rest else (k', v') :: mapSet rest k v

/-- Digit value accepted by Go `strconv.ParseUint`: `0-9`, `a-z`, `A-Z` (checked
against the base by the caller). -/
def goDigitVal (c : Char) : Option Nat :=
  if '0' ≤ c ∧ c ≤ '9' then some (c.toNat - '0'.toNat)
  else if 'a' ≤ c ∧ c ≤ 'z' then some (c.toNat - 'a'.toNat + 10)
  else if 'A' ≤ c ∧ c ≤ 'Z' then some (c.toNat - 'A'.toNat + 10)
  else none

/-- Digit run of Go `strconv.ParseUint`: `none` on an empty string or any character
that is not a digit of the base (Go's syntax error).  The accumulated value is kept
unbounded; Go's `uint64` overflow result is `≥ 2^64`, which the `ParseInt` range
clamp below maps to the same clamped value as Go's `MaxUint64`. -/
def goDigitsAux (base : Nat) (acc : Nat) : List Char → Option Nat
  | [] => some acc
  | c :: rest =>
    match goDigitVal c with
    | some d => if d < base then goDigitsAux base (acc * base + d) rest else none
    | none => none

/-- Digit run of Go `strconv.ParseUint`: `none` on an empty string or any character
that is not a digit of the base (Go's syntax error).  The accumulated value is kept
unbounded; Go's `uint64` overflow result is `≥ 2^64`, which the `ParseInt` range
clamp below maps to the same clamped value as Go's `MaxUint64`. -/
def goDigits (base : Nat) : List Char → Option Nat
  | [] => none
  | c :: rest => goDigitsAux base 0 (c :: rest)

/-- Go `strconv.ParseInt(s, base, bits)` modelled as `(value, err)`.
Syntax errors (empty string, bare sign, invalid digit) return `(0, true)`;
range overflow returns the clamped `int<bits>` bound together with `err = true`,
exactly as Go returns `(MaxInt<bits>, ErrRange)` / `(MinInt<bits>, ErrRange)`. -/
def goParseInt (base bits : Nat) (s : String) : Int × Bool :=
  let (neg, digits) :=
    match s.data with
    | '+' :: rest => (false, rest)
    | '-' :: rest => (true, rest)
    | l => (false, l)
  match goDigits base digits with
  | none => (0, true)
  | some n =>
    let cutoff : Nat := 2 ^ (bits - 1)
    if !neg && decide (cutoff ≤ n) then ((cutoff : Int) - 1, true)
    else if neg && decide (cutoff < n) then (-(cutoff : Int), true)
    else (if neg then -(n : Int) else (n : Int), false)

/-- The integer value `strconv.ParseInt(s, 10, 32)` yields when its error is
discarded, as `oidSorter.Less` does (`int_first, _ := strconv.ParseInt(...)`). -/
def parseVal (s : String) : Int := (goParseInt 10 32 s).1

/-- Go `strings.Split(s, ".")` (single-character separator, empty parts kept). -/
def splitDotAux : List Char → List Char → List String
  | acc, [] => [String.mk acc.reverse]
  | acc, c :: rest =>
    if c = '.' then String.mk acc.reverse :: splitDotAux [] rest
    else splitDotAux (c :: acc) rest

/-- Model of `strings.Split(s, ".")` as used on OIDs by `oidSorter.Less`. -/
def splitDot (s : String) : List String := splitDotAux [] s.data

/-- The component loop of `oidSorter.Less` (`lib/oid_sorter.go:57-73`):
iterates over the (longer) first part list, reading the second list's component at
the same index, or `0` where the second list has none; the `inverse` flag records
that the caller swapped the two lists because the first was shorter. -/
def lessLoop (inverse : Bool) : List String → List String → Bool
  | [], _ => false
  | vf :: restF, ps =>
    let intF := parseVal vf
    let intS : Int := match ps with | [] => 0 | vs :: _ => parseVal vs
    if intF = intS then lessLoop inverse restF ps.tail
    else if inverse then decide (intS < intF) else decide (intF < intS)

/-- Model of `oidSorter.Less` (`lib/oid_sorter.go:45-75`): splits both OIDs on `.`, swaps so
the longer list is walked, and compares components numerically with the error of
`strconv.ParseInt` discarded. -/
def oidLess (a b : String) : Bool :=
  let partsFirst := splitDot a
  let partsSecond := splitDot b
  if partsFirst.length < partsSecond.length then lessLoop true partsSecond partsFirst
  else lessLoop false partsFirst partsSecond

/-- Specification-side three-way comparison: integer comparison as an `Ordering`. -/
def icmp (a b : Int) : Ordering :=
  if a < b then .lt else if a = b then .eq else .gt

/-- Specification-side comparison of two component lists: walk in lockstep, the
shorter list padded with `0`; the first index whose parsed values differ decides. -/
def cmpParts : List String → List String → Ordering
  | [], [] => .eq
  | [], b :: bs =>
    match icmp 0 (parseVal b) with
    | .eq => cmpParts [] bs
    | o => o
  | a :: as, [] =>
    match icmp (parseVal a) 0 with
    | .eq => cmpParts as []
    | o => o
  | a :: as, b :: bs =>
    match icmp (parseVal a) (parseVal b) with
    | .eq => cmpParts as bs
    | o => o
  termination_by xs ys => xs.length + ys.length

/-! ## The SNMP store (`lib/snmp.go`) -/

/-- Model of `userClass` (`lib/snmp.go:119-122`): traffic direction (Go `int`, with
`uploadDirection = 0`, `downloadDirection = 1`) and user name. -/
structure userClass where
  direction : Int
  name : String
deriving DecidableEq, Repr

/-- Model of `parsedData` (`lib/snmp.go:185-203`): one sample emitted by the parser. -/
structure parsedData where
  name : String
  sentBytes : Int
  sentPkt : Int
  droppedPkt : Int
  overLimitPkt : Int
  userClass : Option userClass
deriving DecidableEq, Repr

/-- The dynamic type of the `interface{}` value stored in `snmpData.objectValue`:
the code only ever stores Go `string`, `int64` and `int` values, and `printData`
type-asserts against exactly these three. -/
inductive GoValue where
  | str (s : String)
  | int64 (v : Int)
  | int (v : Int)
deriving DecidableEq, Repr

/-- Model of `snmpData` (`lib/snmp.go:206-215`). -/
structure snmpData where
  oid : String
  objectType : String
  objectValue : GoValue
deriving DecidableEq, Repr

/-- The mutable fields of `snmp` (`lib/snmp.go:223-253`) that the claims touch
(the lock, talker, logger and options carry no data relevant here). -/
structure SnmpState where
  oidData : List (String × snmpData)
  oids : List String
  tcLastNameIndex : Int
  nameToIndex : List (String × Int)
  tcLastUserIndex : Int
  userToIndex : List (String × Int)
deriving DecidableEq, Repr

/-- Model of `emptyLine` (`lib/snmp.go:36`). -/
def emptyLine : String := ""

/-- Model of `pingRequst` / `pingResponse` / `getCommand` / `getNextCommand` (`lib/snmp.go:39-48`). -/
def pingRequst : String := "PING"

def pingResponse : String := "PONG"

def getCommand : String := "get"

def getNextCommand : String := "getnext"

/-- Model of `myName` (`lib/snmp.go:51`). -/
def myName : String := "tc_reader by mumak@"

/-- Model of `myOID` (`lib/snmp.go:54`). -/
def myOID : String := ".1.3.6.1.4.1.2021.255"

/-- Leaf numbers (`lib/snmp.go:57-109`). -/
def tcIndexLeaf : Nat := 1

def tcNumIndexLeaf : Nat := 2

def tcNameLeaf : Nat := 3

def sentBytesLeaf : Nat := 4

def sentPktLeaf : Nat := 5

def droppedPktLeaf : Nat := 6

def overLimitPktLeaf : Nat := 7

def tcUserIndexLeaf : Nat := 8

def tcUserNumIndexLeaf : Nat := 9

def tcUserNameLeaf : Nat := 10

def tcUserDownBytesLeaf : Nat := 11

def tcUserDownPktLeaf : Nat := 12

def tcUserDownDroppedPktLeaf : Nat := 13

def tcUserDownOverLimitPktLeaf : Nat := 14

def tcUserUpBytesLeaf : Nat := 15

def tcUserUpPktLeaf : Nat := 16

def tcUserUpDroppedPktLeaf : Nat := 17

def tcUserUpOverLimitPktLeaf : Nat := 18

/-- Model of `fmt.Sprintf("%s.%d", myOID, leaf)`. -/
def oidLeaf (leaf : Nat) : String := myOID ++ "." ++ toString leaf

/-- Model of `fmt.Sprintf("%s.%d.%d", myOID, leaf, index)`. -/
def oidLeafIdx (leaf : Nat) (index : Int) : String :=
  myOID ++ "." ++ toString leaf ++ "." ++ toString index

/-- Model of `snmp.addSnmpData` (`lib/snmp.go:319-327`): appends the OID to `oids`
unconditionally and stores the entry in the `oidData` map. -/
def addSnmpData (s : SnmpState) (oid objectType : String) (objectValue : GoValue) : SnmpState :=
  { s with
    oids := s.oids ++ [oid]
    oidData := mapSet s.oidData oid ⟨oid, objectType, objectValue⟩ }

/-- Model of `snmp.erase` (`lib/snmp.go:287-316`): fresh maps and counters, then the
self-identification entry plus sixteen descriptive string entries (note: the
code seeds no entry for `tcNumIndexLeaf` (2) or `tcUserNumIndexLeaf` (9)). -/
def eraseState : SnmpState :=
  let s : SnmpState := ⟨[], [], 0, [], 0, []⟩
  let s := addSnmpData s myOID "string" (.str myName)
  let s := addSnmpData s (oidLeaf tcIndexLeaf) "string" (.str "tcIndexLeaf")
  let s := addSnmpData s (oidLeaf tcNameLeaf) "string" (.str "tcNameLeaf")
  let s := addSnmpData s (oidLeaf sentBytesLeaf) "string" (.str "sentBytesLeaf")
  let s := addSnmpData s (oidLeaf sentPktLeaf) "string" (.str "sentPktLeaf")
  let s := addSnmpData s (oidLeaf droppedPktLeaf) "string" (.str "droppedPktLeaf")
  let s := addSnmpData s (oidLeaf overLimitPktLeaf) "string" (.str "overLimitPktLeaf")
  let s := addSnmpData s (oidLeaf tcUserIndexLeaf) "string" (.str "tcUserIndexLeaf")
  let s := addSnmpData s (oidLeaf tcUserNameLeaf) "string" (.str "tcUserNameLeaf")
  let s := addSnmpData s (oidLeaf tcUserDownBytesLeaf) "string" (.str "tcUserDownBytesLeaf")
  let s := addSnmpData s (oidLeaf tcUserDownPktLeaf) "string" (.str "tcUserDownPktLeaf")
  let s := addSnmpData s (oidLeaf tcUserDownDroppedPktLeaf) "string" (.str "tcUserDownDroppedPktLeaf")
  let s := addSnmpData s (oidLeaf tcUserDownOverLimitPktLeaf) "string" (.str "tcUserDownOverLimitPktLeaf")
  let s := addSnmpData s (oidLeaf tcUserUpBytesLeaf) "string" (.str "tcUserUpBytesLeaf")
  let s := addSnmpData s (oidLeaf tcUserUpPktLeaf) "string" (.str "tcUserUpPktLeaf")
  let s := addSnmpData s (oidLeaf tcUserUpDroppedPktLeaf) "string" (.str "tcUserUpDroppedPktLeaf")
  addSnmpData s (oidLeaf tcUserUpOverLimitPktLeaf) "string" (.str "tcUserUpOverLimitPktLeaf")

/-- The index-allocation branch of `snmp.addGenericData` (`lib/snmp.go:331-347`):
look up the name, or allocate the next index and write the index, name and
running-count entries. -/
def addGenericAlloc (s : SnmpState) (d : parsedData) : Int × SnmpState :=
  match mapGet s.nameToIndex d.name with
  | some tcIndex => (tcIndex, s)
  | none =>
    let last := s.tcLastNameIndex + 1
    let s := { s with tcLastNameIndex := last, nameToIndex := mapSet s.nameToIndex d.name last }
    let s := addSnmpData s (oidLeafIdx tcIndexLeaf last) "integer" (.int last)
    let s := addSnmpData s (oidLeafIdx tcNameLeaf last) "string" (.str d.name)
    let s := addSnmpData s (oidLeaf tcNumIndexLeaf) "integer" (.int last)
    (last, s)

/-- Model of `snmp.addGenericData` (`lib/snmp.go:330-364`). -/
def addGenericData (s : SnmpState) (d : parsedData) : SnmpState :=
  let (tcIndex, s) := addGenericAlloc s d
  let s := addSnmpData s (oidLeafIdx sentBytesLeaf tcIndex) "counter" (.int64 d.sentBytes)
  let s := addSnmpData s (oidLeafIdx sentPktLeaf tcIndex) "counter" (.int64 d.sentPkt)
  let s := addSnmpData s (oidLeafIdx droppedPktLeaf tcIndex) "counter" (.int64 d.droppedPkt)
  addSnmpData s (oidLeafIdx overLimitPktLeaf tcIndex) "counter" (.int64 d.overLimitPkt)

/-- The index-allocation branch of `snmp.addUserData` (`lib/snmp.go:369-384`). -/
def addUserAlloc (s : SnmpState) (uc : userClass) : Int × SnmpState :=
  match mapGet s.userToIndex uc.name with
  | some tcUserIndex => (tcUserIndex, s)
  | none =>
    let last := s.tcLastUserIndex + 1
    let s := { s with tcLastUserIndex := last, userToIndex := mapSet s.userToIndex uc.name last }
    let s := addSnmpData s (oidLeafIdx tcUserIndexLeaf last) "integer" (.int last)
    let s := addSnmpData s (oidLeafIdx tcUserNameLeaf last) "string" (.str uc.name)
    let s := addSnmpData s (oidLeaf tcUserNumIndexLeaf) "integer" (.int last)
    (last, s)

/-- Model of `snmp.addUserData` (`lib/snmp.go:367-418`); `uc` is the dereferenced
`data.userClass` pointer (non-nil by the `addData` dispatch).  The Go `switch`
on the direction leaves the four OID strings empty for any direction other than
`uploadDirection`/`downloadDirection`, and each write is guarded by `oid != ""`. -/
def addUserData (s : SnmpState) (d : parsedData) (uc : userClass) : SnmpState :=
  let (tcUserIndex, s) := addUserAlloc s uc
  let (bytesOID, pktOID, droppedOID, overLimitOID) :=
    if uc.direction = 0 then
      (oidLeafIdx tcUserUpBytesLeaf tcUserIndex, oidLeafIdx tcUserUpPktLeaf tcUserIndex,
       oidLeafIdx tcUserUpDroppedPktLeaf tcUserIndex, oidLeafIdx tcUserUpOverLimitPktLeaf tcUserIndex)
    else if uc.direction = 1 then
      (oidLeafIdx tcUserDownBytesLeaf tcUserIndex, oidLeafIdx tcUserDownPktLeaf tcUserIndex,
       oidLeafIdx tcUserDownDroppedPktLeaf tcUserIndex, oidLeafIdx tcUserDownOverLimitPktLeaf tcUserIndex)
    else (emptyLine, emptyLine, emptyLine, emptyLine)
  let s := if bytesOID ≠ emptyLine then addSnmpData s bytesOID "counter" (.int64 d.sentBytes) else s
  let s := if pktOID ≠ emptyLine then addSnmpData s pktOID "counter" (.int64 d.sentPkt) else s
  let s := if droppedOID ≠ emptyLine then addSnmpData s droppedOID "counter" (.int64 d.droppedPkt) else s
  if overLimitOID ≠ emptyLine then addSnmpData s overLimitOID "counter" (.int64 d.overLimitPkt) else s

/-- Model of `snmp.addData` (`lib/snmp.go:421-431`): dispatch on `data.userClass`. -/
def addData (s : SnmpState) (d : parsedData) : SnmpState :=
  match d.userClass with
  | none => addGenericData s d
  | some uc => addUserData s d uc

/-- The value line `snmp.printData` (`lib/snmp.go:479-502`) writes: a type
switch on `objectType` with a type assertion in each arm; a failed assertion or
an unknown type emits the empty line.  The `counter` arm is
`math.Mod(float64(value), float64(math.MaxInt32))` — i.e. the remainder of
truncated division by `2^31 - 1`, modelled by `Int.tmod`; the `float64`
round-trip is exact for `|value| ≤ 2^53`. -/
def valueLine (d : snmpData) : String :=
  if d.objectType = "string" then
    match d.objectValue with
    | .str v => v
    | _ => emptyLine
  else if d.objectType = "counter" then
    match d.objectValue with
    | .int64 v => toString (Int.tmod v 2147483647)
    | _ => emptyLine
  else if d.objectType = "integer" then
    match d.objectValue with
    | .int v => toString v
    | _ => emptyLine
  else emptyLine

/-- Model of `snmp.printData` (`lib/snmp.go:475-503`): always exactly three `putLine`
calls — the OID, the object type, and one value line. -/
def printData (d : snmpData) : List String :=
  [d.oid, d.objectType, valueLine d]

/-- Model of `snmp.snmpGet` (`lib/snmp.go:434-443`). -/
def snmpGet (s : SnmpState) (oid : String) : List String :=
  match mapGet s.oidData oid with
  | some d => printData d
  | none => [emptyLine]

/-- The scan loop of `snmp.snmpGetNext` (`lib/snmp.go:457-462`): walks all of
`oids`, setting `targetPosition = i + 1` at every index `i` holding the
requested OID (the last occurrence wins; `0` if none matches). -/
def findTargetAux (oid : String) : List String → Nat → Nat → Nat
  | [], _, acc => acc
  | x :: rest, i, acc => findTargetAux oid rest (i + 1) (if oid = x then i + 1 else acc)

/-- Model of `snmp.snmpGetNext` (`lib/snmp.go:446-472`).  The final map read
`s.oidData[requestedOID]` cannot miss when `oids` and `oidData` hold the same
keys (Go would dereference a nil pointer otherwise); the `none` arm mirrors the
not-found output and is unreachable under that invariant. -/
def snmpGetNext (s : SnmpState) (oid : String) : List String :=
  match mapGet s.oidData oid with
  | none => [emptyLine]
  | some _ =>
    let targetPosition := findTargetAux oid s.oids 0 0
    let nextPosition := targetPosition + 1
    if s.oids.length ≥ nextPosition then
      let requestedOID := s.oids.getD targetPosition emptyLine
      match mapGet s.oidData requestedOID with
      | some d => printData d
      | none => [emptyLine]
    else [emptyLine]

/-- One `bufio.Reader.ReadLine` result: the returned bytes, the `isPrefix` flag
and whether a non-nil error was returned. -/
structure ReadResult where
  data : String
  isPrefix : Bool
  err : Bool
deriving DecidableEq, Repr

/-- The continuation loop of `stdinTalker.getLine` (`lib/snmp.go:155-169`),
after the first `ReadLine` returned `(line, isPrefix, err)`: while `isPrefix`,
read again, returning the empty line on a read error; after the loop, a non-nil
error from the last read also yields the empty line.  An exhausted stream is a
reader that keeps returning an error (EOF). -/
def getLineAux : String → Bool → Bool → List ReadResult → String
  | line, false, err, _ => if err then emptyLine else line
  | _, true, _, [] => emptyLine
  | line, true, _, r :: rest =>
    if r.err then emptyLine else getLineAux (line ++ r.data) ( ReadResult.isPrefix r) r.err rest

/-- Model of `stdinTalker.getLine` (`lib/snmp.go:155-169`) over a stream of `ReadLine`
results. -/
def getLine : List ReadResult → String
  | [] => emptyLine
  | r :: rest => getLineAux r.data ( ReadResult.isPrefix r) r.err rest

/-- Model of `snmp.Listen` (`lib/snmp.go:506-535`) over the sequence of lines the talker
yields (a failed transport read contributes the empty line, by `getLine`), and
returning the sequence of lines written to the talker.  When the input is
exhausted while reading a command or a key, the read yields the empty line — an
empty command exits the loop, an empty key is looked up as the key `""`. -/
def listen (s : SnmpState) : List String → List String
  | [] => []
  | cmd :: rest =>
    if cmd = emptyLine then []
    else if cmd = pingRequst then pingResponse :: listen s rest
    else if cmd = getCommand then
      match rest with
      | [] => snmpGet s emptyLine
      | key :: rest2 => snmpGet s key ++ listen s rest2
    else if cmd = getNextCommand then
      match rest with
      | [] => snmpGetNext s emptyLine
      | key :: rest2 => snmpGetNext s key ++ listen s rest2
    else emptyLine :: listen s rest

/-! ## The TC output parser (`lib/parser.go`)

The three regular expressions (`reQdiscHeaderStr`, `reClassHeaderStr`,
`reStatsStr`, `lib/parser.go:40-48`) are embedded as direct recognizers.  Each
pattern is a sequence of literals and greedy character-class plus-repetitions in
which every repetition is followed by a character outside its class, so greedy
maximal munch is exactly RE2's leftmost-first match, and
`FindAllStringSubmatch(line, -1)[0]` is the match at the leftmost feasible start
position — modelled by trying every suffix of the line left to right. -/

/-- Model of `[a-zA-Z_]`. -/
def isAlphaUnd (c : Char) : Bool :=
  ('a' ≤ c && c ≤ 'z') || ('A' ≤ c && c ≤ 'Z') || c = '_'

/-- Model of `[0-9a-f]`. -/
def isHexLower (c : Char) : Bool :=
  ('0' ≤ c && c ≤ '9') || ('a' ≤ c && c ≤ 'f')

/-- Model of `[0-9]`. -/
def isDigitCh (c : Char) : Bool := '0' ≤ c && c ≤ '9'

/-- Consume a literal. -/
def dropLit : List Char → List Char → Option (List Char)
  | [], l => some l
  | _ :: _, [] => none
  | c :: cs, x :: xs => if x = c then dropLit cs xs else none

/-- Maximal (possibly empty) run of characters satisfying `p`. -/
def munch (p : Char → Bool) : List Char → List Char × List Char
  | [] => ([], [])
  | c :: cs =>
    if p c then
      let (r, rest) := munch p cs
      (c :: r, rest)
    else ([], c :: cs)

/-- Maximal nonempty run (a `+` repetition). -/
def munch1 (p : Char → Bool) (l : List Char) : Option (List Char × List Char) :=
  match munch p l with
  | ([], _) => none
  | (r, rest) => some (r, rest)

/-- A single `.` (any character; the split lines contain no newline). -/
def anyChar : List Char → Option (List Char)
  | [] => none
  | _ :: rest => some rest

/-- Attempt `reQdiscHeaderStr` at the start of `l`; on success the submatch
slice `[full, qdiscName, qdiscHandle]` (the trailing `.*` extends the full
match to the end of the line). -/
def tryQdiscAt (l : List Char) : Option (List String) :=
  (dropLit "qdisc ".data l).bind fun l1 =>
  (munch1 isAlphaUnd l1).bind fun (name, l2) =>
  (dropLit " ".data l2).bind fun l3 =>
  (munch1 isHexLower l3).bind fun (handle, l4) =>
  (dropLit ":".data l4).map fun _ =>
  [String.mk l, String.mk name, String.mk handle]

/-- Attempt `reClassHeaderStr` at the start of `l`; submatch slice
`[full, className, qdiscHandle, classHandle]`. -/
def tryClassAt (l : List Char) : Option (List String) :=
  (dropLit "class ".data l).bind fun l1 =>
  (munch1 isAlphaUnd l1).bind fun (name, l2) =>
  (dropLit " ".data l2).bind fun l3 =>
  (munch1 isHexLower l3).bind fun (qh, l4) =>
  (dropLit ":".data l4).bind fun l5 =>
  (munch1 isHexLower l5).map fun (ch, _) =>
  [String.mk l, String.mk name, String.mk qh, String.mk ch]

/-- Attempt `reStatsStr` at the start of `l`; submatch slice
`[full, sentBytes, sentPkt, droppedPkt, overLimitPkt]`. -/
def tryStatsAt (l : List Char) : Option (List String) :=
  (dropLit " Sent ".data l).bind fun l1 =>
  (munch1 isDigitCh l1).bind fun (sb, l2) =>
  (dropLit " bytes ".data l2).bind fun l3 =>
  (munch1 isDigitCh l3).bind fun (sp, l4) =>
  (dropLit " pkt ".data l4).bind fun l5 =>
  (anyChar l5).bind fun l6 =>
  (dropLit "dropped ".data l6).bind fun l7 =>
  (munch1 isDigitCh l7).bind fun (dp, l8) =>
  (dropLit ", overlimits ".data l8).bind fun l9 =>
  (munch1 isDigitCh l9).bind fun (olp, l10) =>
  (dropLit " requeues 0".data l10).bind fun l11 =>
  (anyChar l11).map fun l12 =>
  [String.mk (l.take (l.length - l12.length)), String.mk sb, String.mk sp,
   String.mk dp, String.mk olp]

/-- Leftmost match: try every start position left to right. -/
def findMatch (t : List Char → Option (List String)) : List Char → Option (List String)
  | [] => t []
  | c :: cs =>
    match t (c :: cs) with
    | some r => some r
    | none => findMatch t cs

/-- Model of `reQdiscHeader.FindAllStringSubmatch(line, -1)[0]` (`none` when the Go call
returns `nil`). -/
def matchQdiscHeader (line : String) : Option (List String) :=
  findMatch tryQdiscAt line.data

/-- Model of `reClassHeader.FindAllStringSubmatch(line, -1)[0]`. -/
def matchClassHeader (line : String) : Option (List String) :=
  findMatch tryClassAt line.data

/-- Model of `reStats.FindAllStringSubmatch(line, -1)[0]`. -/
def matchStats (line : String) : Option (List String) :=
  findMatch tryStatsAt line.data

/-- Go `strings.Split(s, "\n")`. -/
def splitNLAux : List Char → List Char → List String
  | acc, [] => [String.mk acc.reverse]
  | acc, c :: rest =>
    if c = '\n' then String.mk acc.reverse :: splitNLAux [] rest
    else splitNLAux (c :: acc) rest

/-- The line list `parseData` iterates over (`lib/parser.go:310`). -/
def splitLines (s : String) : List String := splitNLAux [] s.data

/-- The local variables of `tcParser.parseData` (`lib/parser.go:296-308`). -/
structure PDState where
  haveHeader : Bool
  haveData : Bool
  qdiscHandle : Int
  classHandle : Int
  sentBytes : Int
  sentPkt : Int
  droppedPkt : Int
  overLimitPkt : Int
deriving DecidableEq, Repr

/-- The zero values the locals start with. -/
def pdInit : PDState := ⟨false, false, 0, 0, 0, 0, 0, 0⟩

/-- The header phase of one loop iteration of `parseData`
(`lib/parser.go:312-326`): `ParseInt(matchSlice[2], 16, 32)`, and
`ParseInt(matchSlice[3], 16, 32)` only when the slice has four elements
(a class header); a parse error aborts (`.error`). -/
def pdHeaderStep (matchHeader : String → Option (List String)) (line : String)
    (st : PDState) : Except Unit PDState :=
  match matchHeader line with
  | none => .ok st
  | some ms =>
    let r := goParseInt 16 32 (ms.getD 2 emptyLine)
    if r.2 then .error ()
    else if ms.length = 4 then
      let r2 := goParseInt 16 32 (ms.getD 3 emptyLine)
      if r2.2 then .error ()
      else .ok { st with qdiscHandle := r.1, classHandle := r2.1, haveHeader := true }
    else .ok { st with qdiscHandle := r.1, haveHeader := true }

/-- The stats phase of one loop iteration (`lib/parser.go:329-348`):
`sentBytes` with bit size 64, the other three with bit size 32. -/
def pdDataStep (line : String) (st : PDState) : Except Unit PDState :=
  match matchStats line with
  | none => .ok st
  | some ms =>
    let r1 := goParseInt 10 64 (ms.getD 1 emptyLine)
    if r1.2 then .error ()
    else
      let r2 := goParseInt 10 32 (ms.getD 2 emptyLine)
      if r2.2 then .error ()
      else
        let r3 := goParseInt 10 32 (ms.getD 3 emptyLine)
        if r3.2 then .error ()
        else
          let r4 := goParseInt 10 32 (ms.getD 4 emptyLine)
          if r4.2 then .error ()
          else .ok { st with sentBytes := r1.1, sentPkt := r2.1, droppedPkt := r3.1,
                             overLimitPkt := r4.1, haveData := true }

/-- The emission phase (`lib/parser.go:351-378`): when both flags are set,
clear them, build the composite name
`ifaceName ++ ":" ++ FormatInt(qdiscHandle, 10) ++ ":" ++ FormatInt(classHandle, 10)`,
emit the generic sample, and a second user sample when the name is configured. -/
def pdEmitStep (unc : List (String × userClass)) (ifaceName : String)
    (st : PDState) : PDState × List parsedData :=
  if st.haveHeader && st.haveData then
    let st' := { st with haveHeader := false, haveData := false }
    let tcName := ifaceName ++ ":" ++ toString st.qdiscHandle ++ ":" ++ toString st.classHandle
    let d : parsedData :=
      ⟨tcName, st.sentBytes, st.sentPkt, st.droppedPkt, st.overLimitPkt, none⟩
    match mapGet unc tcName with
    | some uc => (st', [d, { d with userClass := some uc }])
    | none => (st', [d])
  else (st, [])

/-- One full loop iteration of `parseData`: header phase, stats phase, emission;
returns the new locals, the samples passed to `snmp.addData` by this line (in
order), and whether the function returned an error here. -/
def pdLine (matchHeader : String → Option (List String)) (unc : List (String × userClass))
    (ifaceName line : String) (st : PDState) : PDState × List parsedData × Bool :=
  match pdHeaderStep matchHeader line st with
  | .error _ => (st, [], true)
  | .ok st1 =>
    match pdDataStep line st1 with
    | .error _ => (st1, [], true)
    | .ok st2 =>
      let (st3, em) := pdEmitStep unc ifaceName st2
      (st3, em, false)

/-- The line loop of `parseData`: accumulates the emitted samples in order and
stops at the first erroring line (anything already emitted stays emitted). -/
def pdRun (matchHeader : String → Option (List String)) (unc : List (String × userClass))
    (ifaceName : String) : PDState → List String → List parsedData × Bool × PDState
  | st, [] => ([], false, st)
  | st, line :: rest =>
    match pdLine matchHeader unc ifaceName line st with
    | (st', em, true) => (em, true, st')
    | (st', em, false) =>
      let (emRest, err, stF) := pdRun matchHeader unc ifaceName st' rest
      (em ++ emRest, err, stF)

/-- Model of `tcParser.parseData` (`lib/parser.go:294-381`): split the command output on
newlines and run the two-phase loop from zeroed locals.  The result is the list
of samples handed to `snmp.addData`, the error flag (Go's non-nil return), and
the final locals. -/
def parseDataPD (matchHeader : String → Option (List String)) (unc : List (String × userClass))
    (cmdOutput ifaceName : String) : List parsedData × Bool × PDState :=
  pdRun matchHeader unc ifaceName pdInit (splitLines cmdOutput)

/-- Model of `tcParser.executeTc` (`lib/parser.go:228-241`) over a script of pending
`Execute` results (`none` = the invocation returned an error, consumed in call
order; an exhausted script behaves as an always-failing executer).  Returns the
two outputs, or `none` on the first error, plus the unconsumed script. -/
def executeTc : List (Option String) → Option (String × String) × List (Option String)
  | [] => (none, [])
  | none :: rest => (none, rest)
  | some qdiscOutput :: rest =>
    match rest with
    | [] => (none, [])
    | none :: rest2 => (none, rest2)
    | some classOutput :: rest2 => (some (qdiscOutput, classOutput), rest2)

/-- Feeding a sample list to `snmp.addData` in order. -/
def applyAdds (s : SnmpState) (l : List parsedData) : SnmpState :=
  l.foldl addData s

/-- The interface loop of `tcParser.parseTc` (`lib/parser.go:272-290`): per
interface run both commands, parse the qdisc output, then the class output; any
command error or parse error returns immediately, keeping every write already
made and leaving the rest of the script unconsumed. -/
def parseTcIfaces (unc : List (String × userClass)) :
    SnmpState → List (Option String) → List String → SnmpState × List (Option String)
  | st, script, [] => (st, script)
  | st, script, iface :: rest =>
    match executeTc script with
    | (none, script') => (st, script')
    | (some (qdiscOutput, classOutput), script') =>
      let r1 := parseDataPD matchQdiscHeader unc qdiscOutput iface
      let st1 := applyAdds st r1.1
      if r1.2.1 then (st1, script')
      else
        let r2 := parseDataPD matchClassHeader unc classOutput iface
        let st2 := applyAdds st1 r2.1
        if r2.2.1 then (st2, script')
        else parseTcIfaces unc st2 script' rest

/-- Model of `tcParser.parseTc` (`lib/parser.go:265-291`): erase, then the interface
loop (the trailing sort performed by `unlock` is outside this model; no claim
depends on the sorted order of a rebuilt namespace). -/
def parseTcModel (unc : List (String × userClass)) (ifaces : List String)
    (script : List (Option String)) : SnmpState × List (Option String) :=
  parseTcIfaces unc eraseState script ifaces

/-! ## Lemmas about the comparator -/

theorem icmp_eq_of_eq {a b : Int} (h : a = b) : icmp a b = .eq := by
  simp [icmp, h]

theorem icmp_lt_of_lt {a b : Int} (h : a < b) : icmp a b = .lt := by
  simp [icmp, h]

theorem icmp_self (a : Int) : icmp a a = .eq := by
  simp [icmp]

theorem icmp_gt_of_gt {a b : Int} (h : b < a) : icmp a b = .gt := by
  have h1 : ¬ a < b := not_lt_of_gt h
  have h2 : a ≠ b := ne_of_gt h
  simp [icmp, h1, h2]

theorem lessLoop_eq_cmpParts (inverse : Bool) :
    ∀ xs ys : List String, ys.length ≤ xs.length →
      lessLoop inverse xs ys =
        ((if inverse then cmpParts ys xs else cmpParts xs ys) == Ordering.lt) := by
  intro xs
  induction xs with
  | nil =>
    intro ys h
    have hys : ys = [] := List.eq_nil_of_length_eq_zero (Nat.le_zero.mp h)
    subst hys
    cases inverse <;> simp [lessLoop, cmpParts] <;> try decide
  | cons x xs ih =>
    intro ys h
    cases ys with
    | nil =>
      rcases lt_trichotomy (parseVal x) 0 with h0 | h0 | h0
      · have hne : parseVal x ≠ 0 := ne_of_lt h0
        cases inverse <;>
          simp [lessLoop, cmpParts, hne, h0, not_lt_of_gt h0, icmp_lt_of_lt h0,
            icmp_gt_of_gt h0] <;> try decide
      · cases inverse <;>
          simp [lessLoop, cmpParts, h0, icmp_self, ih [] (Nat.zero_le _)]
      · have hne : parseVal x ≠ 0 := ne_of_gt h0
        cases inverse <;>
          simp [lessLoop, cmpParts, hne, h0, not_lt_of_gt h0, icmp_lt_of_lt h0,
            icmp_gt_of_gt h0] <;> try decide
    | cons y ys =>
      have h' : ys.length ≤ xs.length := by simpa using h
      rcases lt_trichotomy (parseVal x) (parseVal y) with h0 | h0 | h0
      · have hne : parseVal x ≠ parseVal y := ne_of_lt h0
        cases inverse <;>
          simp [lessLoop, cmpParts, hne, h0, not_lt_of_gt h0, icmp_lt_of_lt h0,
            icmp_gt_of_gt h0] <;> try decide
      · cases inverse <;>
          simp [lessLoop, cmpParts, h0, icmp_self, ih ys h']
      · have hne : parseVal x ≠ parseVal y := ne_of_gt h0
        cases inverse <;>
          simp [lessLoop, cmpParts, hne, h0, not_lt_of_gt h0, icmp_lt_of_lt h0,
            icmp_gt_of_gt h0] <;> try decide

/-- C1.  The claim as frozen is false on the code: `".1.3.6"` is a numeric
prefix of the distinct path `".1.3.6.0"` (fewer components, identical leading
components), yet `oidSorter.Less` holds in neither direction — the longer
path's extra component parses to `0`, which ties with the implicit `0` padding,
so the pair is unordered rather than the shorter sorting strictly first. -/
theorem c1_prefix_zero_counterexample :
    oidLess ".1.3.6" ".1.3.6.0" = false ∧ oidLess ".1.3.6.0" ".1.3.6" = false ∧
      (".1.3.6" : String) ≠ ".1.3.6.0" := by
  refine ⟨by decide, by decide, by decide⟩

/-- C1 (amended).  `oidSorter.Less` orders two paths exactly by the padded
componentwise numeric comparison: pad the shorter component list with zeros,
parse each component as a 32-bit decimal integer with the parse error
discarded, and let the first index with differing values decide; a path that is
a numeric prefix of the other sorts strictly before it if and only if some
extra component of the longer path parses to a nonzero value (in particular
`".255.9"` sorts before `".255.10"` and `".1.3.6"` before `".1.3.6.1"`), while
extra components that all parse to zero leave the pair mutually not-less. -/
theorem c1_pathorder_refines_padded_compare :
    (∀ a b : String,
        oidLess a b = (cmpParts (splitDot a) (splitDot b) == Ordering.lt)) ∧
      oidLess ".255.9" ".255.10" = true ∧ oidLess ".1.3.6" ".1.3.6.1" = true := by
  refine ⟨fun a b => ?_, by decide, by decide⟩
  unfold oidLess
  by_cases hlen : (splitDot a).length < (splitDot b).length
  · simp only [hlen, if_true]
    exact lessLoop_eq_cmpParts true (splitDot b) (splitDot a) (le_of_lt hlen)
  · simp only [hlen, if_false]
    exact lessLoop_eq_cmpParts false (splitDot a) (splitDot b) (le_of_not_lt hlen)

/-- C10.  `oidSorter.Less` is a total boolean function on arbitrary strings:
integer-parse errors are discarded, a wholly non-numeric component is compared
as the accompanying value `0`, so `".foo"` and `".0"` compare equal (mutually
not-less) and no comparison fails. -/
theorem c10_less_total_nonnumeric :
    oidLess ".foo" ".0" = false ∧ oidLess ".0" ".foo" = false ∧
      parseVal "foo" = 0 ∧ (goParseInt 10 32 "foo").2 = true := by
  refine ⟨by decide, by decide, by decide, by decide⟩

/-! ## Lemmas about the association-list maps -/

theorem mapGet_eq_none_iff {α : Type} (m : List (String × α)) (k : String) :
    mapGet m k = none ↔ k ∉ m.map Prod.fst := by
  induction m with
  | nil => simp [mapGet]
  | cons p rest ih =>
    obtain ⟨k', v⟩ := p
    by_cases h : k' = k
    · subst h; simp [mapGet]
    · have hk : ¬ k = k' := fun hh => h hh.symm
      simp only [mapGet, if_neg h, List.map_cons, List.mem_cons]
      rw [ih]
      tauto

theorem mapGet_isSome_iff {α : Type} (m : List (String × α)) (k : String) :
    (mapGet m k).isSome ↔ k ∈ m.map Prod.fst := by
  rw [Option.isSome_iff_ne_none, ne_eq, mapGet_eq_none_iff, not_not]

theorem mapGet_set_isSome {α : Type} (m : List (String × α)) (k : String) (v : α)
    (x : String) :
    (mapGet (mapSet m k v) x).isSome ↔ (x = k ∨ (mapGet m x).isSome) := by
  induction m with
  | nil =>
    by_cases h : k = x
    · simp [mapSet, mapGet, h]
    · have hx : ¬ x = k := fun hh => h hh.symm
      simp [mapSet, mapGet, h, hx]
  | cons p rest ih =>
    obtain ⟨k', v'⟩ := p
    by_cases h : k' = k
    · subst h
      by_cases hx : k' = x
      · simp [mapSet, mapGet, hx]
      · have hx' : ¬ x = k' := fun hh => hx hh.symm
        simp [mapSet, mapGet, hx, hx']
    · by_cases hx : k' = x
      · simp only [mapSet, if_neg h, mapGet, if_pos hx]
        simp
      · simp only [mapSet, if_neg h, mapGet, if_neg hx, ih]

/-! ## C2: counter formatting -/

/-- C2.  The claim as frozen is false on the code: the `counter` arm of
`printData` reduces modulo `math.MaxInt32 = 2^31 - 1`, not `2^31`, so the
stored value `2^31` is written as `"1"`, not `"0"`. -/
theorem c2_counter_mod_counterexample :
    printData ⟨oidLeafIdx sentBytesLeaf 1, "counter", .int64 2147483648⟩ =
        [oidLeafIdx sentBytesLeaf 1, "counter", "1"] ∧
      printData ⟨oidLeafIdx sentBytesLeaf 1, "counter", .int64 2147483648⟩ ≠
        [oidLeafIdx sentBytesLeaf 1, "counter", "0"] := by
  refine ⟨by decide, by decide⟩

/-- C2 (amended).  A stored counter entry is written as the stored value
reduced modulo `2^31 - 1` (Go's `math.MaxInt32`) in base-10 digits: `2^31`
formats as `"1"`, `2^31 + 1` as `"2"`, and `9` as `"9"`.  The universal part is
stated for non-negative values below `2^53`, where the code's `float64`
round-trip through `math.Mod` is exact. -/
theorem c2_counter_mod_maxint32 :
    (∀ (k : String) (v : Int), 0 ≤ v → v < 2 ^ 53 →
        printData ⟨k, "counter", .int64 v⟩ = [k, "counter", toString (v % 2147483647)]) ∧
      valueLine ⟨emptyLine, "counter", .int64 (2 ^ 31)⟩ = "1" ∧
      valueLine ⟨emptyLine, "counter", .int64 (2 ^ 31 + 1)⟩ = "2" ∧
      valueLine ⟨emptyLine, "counter", .int64 9⟩ = "9" := by
  refine ⟨fun k v h0 _h53 => ?_, by decide, by decide, by decide⟩
  have ht : Int.tmod v 2147483647 = v % 2147483647 :=
    Int.tmod_eq_emod h0 (by norm_num)
  simp [printData, valueLine, ht]

/-- C2 witness: the universal part of the amended claim evaluated at `2^31`. -/
theorem c2_counter_mod_maxint32_witness :
    printData ⟨emptyLine, "counter", .int64 (2 ^ 31)⟩ =
      [emptyLine, "counter", toString ((2 ^ 31 : Int) % 2147483647)] :=
  c2_counter_mod_maxint32.1 emptyLine (2 ^ 31) (by norm_num) (by norm_num)

/-! ## C6: the header set seeded by `erase` -/

/-- The seventeen keys `erase` seeds, in insertion order: the root plus sixteen
leaf descriptors — every reserved direct child of the root except
`tcNumIndexLeaf` (2) and `tcUserNumIndexLeaf` (9). -/
def headerOids : List String :=
  [myOID, oidLeaf tcIndexLeaf, oidLeaf tcNameLeaf, oidLeaf sentBytesLeaf,
   oidLeaf sentPktLeaf, oidLeaf droppedPktLeaf, oidLeaf overLimitPktLeaf,
   oidLeaf tcUserIndexLeaf, oidLeaf tcUserNameLeaf, oidLeaf tcUserDownBytesLeaf,
   oidLeaf tcUserDownPktLeaf, oidLeaf tcUserDownDroppedPktLeaf,
   oidLeaf tcUserDownOverLimitPktLeaf, oidLeaf tcUserUpBytesLeaf,
   oidLeaf tcUserUpPktLeaf, oidLeaf tcUserUpDroppedPktLeaf,
   oidLeaf tcUserUpOverLimitPktLeaf]

/-- C6.  The claim as frozen is false on the code: `erase` seeds no descriptor
for two of the 18 reserved direct children — the count leaves `.2`
(`tcNumIndexLeaf`) and `.9` (`tcUserNumIndexLeaf`) — so the store holds 17
entries, not 19, and a `get` for the reserved child `.2` answers with one blank
line immediately after a reset. -/
theorem c6_missing_count_leaves_counterexample :
    snmpGet eraseState (oidLeaf tcNumIndexLeaf) = [emptyLine] ∧
      snmpGet eraseState (oidLeaf tcUserNumIndexLeaf) = [emptyLine] ∧
      eraseState.oidData.length = 17 := by
  refine ⟨by decide, by decide, by decide⟩

/-- C6 (amended).  Immediately after `erase` the store contains exactly the
root self-identification string entry plus one descriptive string entry for
each reserved direct child of the root except the two count leaves (16
descriptors, 17 entries in all); both index counters are zero and both index
maps are empty; and `get` for any key outside this set answers with exactly one
blank line. -/
theorem c6_erase_header_set :
    eraseState.oids = headerOids ∧
      eraseState.oidData.map Prod.fst = headerOids ∧
      eraseState.tcLastNameIndex = 0 ∧ eraseState.nameToIndex = [] ∧
      eraseState.tcLastUserIndex = 0 ∧ eraseState.userToIndex = [] ∧
      mapGet eraseState.oidData myOID = some ⟨myOID, "string", .str myName⟩ ∧
      (∀ p ∈ eraseState.oidData, p.2.objectType = "string") ∧
      (∀ k : String, k ∉ headerOids → snmpGet eraseState k = [emptyLine]) := by
  refine ⟨by decide, by decide, by decide, by decide, by decide, by decide, by decide,
    by decide, fun k hk => ?_⟩
  have hkeys : eraseState.oidData.map Prod.fst = headerOids := by decide
  have hnone : mapGet eraseState.oidData k = none := by
    rw [mapGet_eq_none_iff, hkeys]; exact hk
  simp [snmpGet, hnone]

/-- C6 witness: a key outside the header set answers with one blank line. -/
theorem c6_erase_header_set_witness :
    snmpGet eraseState ".9.9" = [emptyLine] :=
  c6_erase_header_set.2.2.2.2.2.2.2.2 ".9.9" (by decide)

/-! ## C7: type/value mismatches in `printData` -/

/-- The entries whose declared kind matches the dynamic type of their value —
exactly the cases in which a type assertion in `printData` succeeds. -/
def wellTyped (d : snmpData) : Bool :=
  if d.objectType = "string" then
    match d.objectValue with
    | .str _ => true
    | _ => false
  else if d.objectType = "counter" then
    match d.objectValue with
    | .int64 _ => true
    | _ => false
  else if d.objectType = "integer" then
    match d.objectValue with
    | .int _ => true
    | _ => false
  else false

theorem printData_of_not_wellTyped (d : snmpData) (h : wellTyped d = false) :
    printData d = [d.oid, d.objectType, emptyLine] := by
  obtain ⟨o, t, v⟩ := d
  simp only [wellTyped] at h
  simp only [printData, valueLine]
  by_cases h1 : t = "string"
  · subst h1; cases v <;> simp_all
  · by_cases h2 : t = "counter"
    · subst h2; cases v <;> simp_all
    · by_cases h3 : t = "integer"
      · subst h3; cases v <;> simp_all
      · simp [h1, h2, h3]

/-- C7.  The claim as frozen is false on the code: serving a mismatched entry
is not the same transport output as a missing key — `printData` has already
written the key line and the kind line before the type assertion fails, so the
output is three lines (key, kind, blank), not the single blank line of a
not-found answer. -/
theorem c7_mismatch_counterexample :
    printData ⟨myOID, "string", .int 5⟩ = [myOID, "string", emptyLine] ∧
      printData ⟨myOID, "string", .int 5⟩ ≠ [emptyLine] := by
  refine ⟨by decide, by decide⟩

/-- C7 (amended).  For every stored entry whose value's dynamic type does not
match its declared kind (or whose kind is none of string/integer/counter),
serving the entry writes the key line and the kind line followed by one blank
value line, and the protocol loop continues without failing. -/
theorem c7_mismatch_three_lines :
    (∀ d : snmpData, wellTyped d = false →
        printData d = [d.oid, d.objectType, emptyLine]) ∧
      (∀ (st : SnmpState) (k : String) (d : snmpData) (rest : List String),
        mapGet st.oidData k = some d → wellTyped d = false →
          listen st (getCommand :: k :: rest) =
            d.oid :: d.objectType :: emptyLine :: listen st rest) := by
  refine ⟨printData_of_not_wellTyped, fun st k d rest hmap hwt => ?_⟩
  have hstep : listen st (getCommand :: k :: rest) = snmpGet st k ++ listen st rest := rfl
  rw [hstep]
  simp [snmpGet, hmap, printData_of_not_wellTyped d hwt]

/-- C7 witness: a concrete mismatched entry served over `get`. -/
theorem c7_mismatch_three_lines_witness :
    listen ⟨[(".7", ⟨".7", "string", .int 5⟩)], [".7"], 0, [], 0, []⟩
        (getCommand :: ".7" :: []) = [".7", "string", emptyLine] := by
  have h := c7_mismatch_three_lines.2 ⟨[(".7", ⟨".7", "string", .int 5⟩)], [".7"], 0, [], 0, []⟩
    ".7" ⟨".7", "string", .int 5⟩ [] (by decide) (by decide)
  simpa using h

/-! ## C3: `snmpGetNext` -/

theorem findTargetAux_of_not_mem (k : String) (l : List String) (h : k ∉ l) :
    ∀ i acc, findTargetAux k l i acc = acc := by
  induction l with
  | nil => intro i acc; rfl
  | cons x rest ih =>
    intro i acc
    have hne : ¬ k = x := fun hh => h (hh ▸ List.mem_cons_self x rest)
    simp only [findTargetAux, if_neg hne]
    exact ih (fun hm => h (List.mem_cons_of_mem _ hm)) (i + 1) acc

theorem findTargetAux_of_get (k : String) (l : List String) (hnd : l.Nodup) :
    ∀ i : Nat, l.get? i = some k → ∀ j acc, findTargetAux k l j acc = j + i + 1 := by
  induction l with
  | nil => intro i hi; simp at hi
  | cons x rest ih =>
    intro i hi j acc
    cases i with
    | zero =>
      have hx : x = k := by simpa using hi
      subst hx
      simp only [findTargetAux, if_pos rfl]
      have hnotmem : x ∉ rest := (List.nodup_cons.mp hnd).1
      rw [findTargetAux_of_not_mem x rest hnotmem]
      simp
    | succ i' =>
      have hi' : rest.get? i' = some k := by simpa using hi
      have hmem : k ∈ rest := List.get?_mem hi'
      have hne : ¬ k = x := by
        intro hh
        exact (List.nodup_cons.mp hnd).1 (hh ▸ hmem)
      simp only [findTargetAux, if_neg hne]
      rw [ih (List.nodup_cons.mp hnd).2 i' hi' (j + 1) acc]
      omega

/-- C3.  `snmpGetNext` answers with the three lines (key, kind, formatted
value) of the entry at the position immediately after the requested key in the
stored key sequence whenever the key is stored and not last, and with exactly
one blank line when the key is absent from the store or is the last stored
key. -/
theorem c3_getnext_successor :
    (∀ (st : SnmpState) (k succKey : String) (i : Nat) (d' : snmpData),
        st.oids.Nodup → st.oids.get? i = some k →
        st.oids.get? (i + 1) = some succKey →
        (mapGet st.oidData k).isSome → mapGet st.oidData succKey = some d' →
        d'.oid = succKey →
        snmpGetNext st k = [succKey, d'.objectType, valueLine d']) ∧
      (∀ (st : SnmpState) (k : String),
        mapGet st.oidData k = none → snmpGetNext st k = [emptyLine]) ∧
      (∀ (st : SnmpState) (k : String) (i : Nat),
        st.oids.Nodup → st.oids.get? i = some k → i + 1 = st.oids.length →
        (mapGet st.oidData k).isSome → snmpGetNext st k = [emptyLine]) := by
  refine ⟨fun st k succKey i d' hnd hk hs hksome hd hoid => ?_,
    fun st k h => by simp [snmpGetNext, h],
    fun st k i hnd hk hlast hksome => ?_⟩
  · obtain ⟨dk, hdk⟩ := Option.isSome_iff_exists.mp hksome
    have hlt : i + 1 < st.oids.length := (List.get?_eq_some.mp hs).1
    have htarget : findTargetAux k st.oids 0 0 = i + 1 := by
      rw [findTargetAux_of_get k st.oids hnd i hk 0 0]
      omega
    have hgetD : st.oids.getD (i + 1) emptyLine = succKey := by
      rw [List.getD_eq_getElem?_getD, ← List.get?_eq_getElem?, hs]
      rfl
    simp only [snmpGetNext, hdk, htarget, hgetD, hd, printData, hoid]
    rw [if_pos (by omega)]
  · obtain ⟨dk, hdk⟩ := Option.isSome_iff_exists.mp hksome
    have htarget : findTargetAux k st.oids 0 0 = i + 1 := by
      rw [findTargetAux_of_get k st.oids hnd i hk 0 0]
      omega
    simp only [snmpGetNext, hdk, htarget]
    rw [if_neg (by omega)]

/-- C3 witness: on the freshly erased store, the successor of the root key is
the first leaf descriptor; the absent key `".9.9"` and the last stored key
answer with one blank line. -/
theorem c3_getnext_successor_witness :
    snmpGetNext eraseState myOID = [oidLeaf tcIndexLeaf, "string", "tcIndexLeaf"] ∧
      snmpGetNext eraseState ".9.9" = [emptyLine] ∧
      snmpGetNext eraseState (oidLeaf tcUserUpOverLimitPktLeaf) = [emptyLine] := by
  refine ⟨?_, ?_, ?_⟩
  · have h := c3_getnext_successor.1 eraseState myOID (oidLeaf tcIndexLeaf) 0
      ⟨oidLeaf tcIndexLeaf, "string", .str "tcIndexLeaf"⟩ (by decide) (by decide)
      (by decide) (by decide) (by decide) (by decide)
    exact h.trans (by decide)
  · exact c3_getnext_successor.2.1 eraseState ".9.9" (by decide)
  · exact c3_getnext_successor.2.2 eraseState (oidLeaf tcUserUpOverLimitPktLeaf) 16
      (by decide) (by decide) (by decide) (by decide)

/-! ## C5: the key-set relation between `oids` and `oidData` -/

/-- The set part of the spec's invariant: the elements of `oids` are exactly
the keys of `oidData`. -/
def KeysEq (s : SnmpState) : Prop :=
  ∀ x : String, x ∈ s.oids ↔ (mapGet s.oidData x).isSome

theorem keysEq_addSnmpData {s : SnmpState} (h : KeysEq s) (oid ty : String) (v : GoValue) :
    KeysEq (addSnmpData s oid ty v) := by
  intro x
  simp only [addSnmpData, List.mem_append, List.mem_singleton, mapGet_set_isSome]
  have hx := h x
  tauto

theorem keysEq_addGenericData {s : SnmpState} (h : KeysEq s) (d : parsedData) :
    KeysEq (addGenericData s d) := by
  unfold addGenericData addGenericAlloc
  cases hm : mapGet s.nameToIndex d.name with
  | some i =>
    simp only [hm]
    repeat' apply keysEq_addSnmpData
    exact h
  | none =>
    simp only [hm]
    repeat' apply keysEq_addSnmpData
    exact h

theorem keysEq_addUserData {s : SnmpState} (h : KeysEq s) (d : parsedData) (uc : userClass) :
    KeysEq (addUserData s d uc) := by
  unfold addUserData addUserAlloc
  cases hm : mapGet s.userToIndex uc.name with
  | some i =>
    simp only [hm]
    split_ifs <;> (repeat' apply keysEq_addSnmpData) <;> exact h
  | none =>
    simp only [hm]
    split_ifs <;> (repeat' apply keysEq_addSnmpData) <;> exact h

theorem keysEq_addData {s : SnmpState} (h : KeysEq s) (d : parsedData) :
    KeysEq (addData s d) := by
  unfold addData
  cases hm : d.userClass with
  | none => exact keysEq_addGenericData h d
  | some uc => exact keysEq_addUserData h d uc

/-- C5.  The claim as frozen is false on the code: the ordered key sequence can
hold duplicates — `addGenericData` appends the running-count key
(`tcNumIndexLeaf`) once per newly allocated name, so after a rebuild that
registers two distinct names that key occurs twice in `oids`. -/
theorem c5_duplicate_keys_counterexample :
    ((addData (addData eraseState ⟨"eth0:2:0", 1, 2, 3, 4, none⟩)
        ⟨"eth0:3:0", 5, 6, 7, 8, none⟩).oids.count (oidLeaf tcNumIndexLeaf) = 2) ∧
      ¬ (addData (addData eraseState ⟨"eth0:2:0", 1, 2, 3, 4, none⟩)
          ⟨"eth0:3:0", 5, 6, 7, 8, none⟩).oids.Nodup := by
  have hc : ((addData (addData eraseState ⟨"eth0:2:0", 1, 2, 3, 4, none⟩)
      ⟨"eth0:3:0", 5, 6, 7, 8, none⟩).oids.count (oidLeaf tcNumIndexLeaf) = 2) := by decide
  refine ⟨hc, fun hnd => ?_⟩
  have h1 := List.nodup_iff_count_le_one.mp hnd (oidLeaf tcNumIndexLeaf)
  omega

/-- C5 (amended).  At every observable point the *set* part of the invariant
holds — every element of `oids` is a key of `oidData` and every key of
`oidData` occurs in `oids` — it is established by `erase` and preserved by
every `addData`; but `oids` is not duplicate-free (the count keys recur, see
the counterexample). -/
theorem c5_key_set_equality :
    KeysEq eraseState ∧
      (∀ (s : SnmpState) (d : parsedData), KeysEq s → KeysEq (addData s d)) := by
  constructor
  · have hkeys : eraseState.oidData.map Prod.fst = eraseState.oids := by decide
    intro x
    rw [mapGet_isSome_iff, hkeys]
  · exact fun s d h => keysEq_addData h d

/-- C5 witness: the preservation part applied to the erased store and one
concrete sample. -/
theorem c5_key_set_equality_witness :
    KeysEq (addData eraseState ⟨"eth0:2:0", 1, 2, 3, 4, none⟩) :=
  c5_key_set_equality.2 eraseState ⟨"eth0:2:0", 1, 2, 3, 4, none⟩ c5_key_set_equality.1

/-! ## C9: transport read failures -/

/-- C9.  A failed transport read makes `getLine` return the empty line (also on
an exhausted stream), so a read failure at the top of the protocol loop
terminates the loop exactly as a blank input line does, and a read failure
while fetching the key of a `get`/`getnext` is handled as a lookup of the
empty-string key, answered with one blank line; every case is a total function
of the input, so a read failure never crashes the handler. -/
theorem c9_read_failure :
    (∀ (r : ReadResult) (rest : List ReadResult), r.err = true → ReadResult.isPrefix r = false →
        getLine (r :: rest) = emptyLine) ∧
      getLine [] = emptyLine ∧
      (∀ (st : SnmpState) (rest : List String), listen st (emptyLine :: rest) = []) ∧
      (∀ st : SnmpState, mapGet st.oidData emptyLine = none →
        listen st [getCommand] = [emptyLine] ∧ listen st [getNextCommand] = [emptyLine]) := by
  refine ⟨fun r rest h1 h2 => ?_, rfl, fun st rest => by cases rest <;> rfl,
    fun st h => ⟨?_, ?_⟩⟩
  · obtain ⟨dat, p, e⟩ := r
    simp only at h1 h2
    subst h1; subst h2
    cases rest <;> rfl
  · have hstep : listen st [getCommand] = snmpGet st emptyLine := rfl
    rw [hstep]
    simp [snmpGet, h]
  · have hstep : listen st [getNextCommand] = snmpGetNext st emptyLine := rfl
    rw [hstep]
    simp [snmpGetNext, h]

/-- C9 witness: a concrete failed first read, and a `get` whose key read
failed against the freshly erased store. -/
theorem c9_read_failure_witness :
    getLine [⟨"x", false, true⟩] = emptyLine ∧
      listen eraseState [getCommand] = [emptyLine] :=
  ⟨c9_read_failure.1 ⟨"x", false, true⟩ [] rfl rfl,
   (c9_read_failure.2.2.2 eraseState (by decide)).1⟩

/-! ## C8: cycle abort in `parseTc` -/

/-- C8.  A failed command invocation or a parse failure aborts the cycle
immediately: the interface loop returns at the failing interface, the rest of
the executer script is left unconsumed (no further command invocations), no
further interface is parsed, every store write already made is kept (no
rollback), and the writes made before the failure within the failing output
remain applied. -/
theorem c8_cycle_abort :
    (∀ (unc : List (String × userClass)) (st : SnmpState) (s' : List (Option String))
        (f : String) (rest : List String),
        parseTcIfaces unc st (none :: s') (f :: rest) = (st, s')) ∧
      (∀ (unc : List (String × userClass)) (st : SnmpState) (q : String)
        (s' : List (Option String)) (f : String) (rest : List String),
        parseTcIfaces unc st (some q :: none :: s') (f :: rest) = (st, s')) ∧
      (∀ (unc : List (String × userClass)) (st : SnmpState) (q c : String)
        (s' : List (Option String)) (f : String) (rest : List String),
        (parseDataPD matchQdiscHeader unc q f).2.1 = true →
          parseTcIfaces unc st (some q :: some c :: s') (f :: rest) =
            (applyAdds st (parseDataPD matchQdiscHeader unc q f).1, s')) ∧
      (∀ (unc : List (String × userClass)) (st : SnmpState) (q c : String)
        (s' : List (Option String)) (f : String) (rest : List String),
        (parseDataPD matchQdiscHeader unc q f).2.1 = false →
        (parseDataPD matchClassHeader unc c f).2.1 = true →
          parseTcIfaces unc st (some q :: some c :: s') (f :: rest) =
            (applyAdds (applyAdds st (parseDataPD matchQdiscHeader unc q f).1)
              (parseDataPD matchClassHeader unc c f).1, s')) := by
  refine ⟨fun unc st s' f rest => rfl, fun unc st q s' f rest => rfl,
    fun unc st q c s' f rest h => ?_, fun unc st q c s' f rest h1 h2 => ?_⟩
  · simp [parseTcIfaces, executeTc, h]
  · simp [parseTcIfaces, executeTc, h1, h2]

/-- C8 witness: a qdisc header whose hexadecimal handle overflows a 32-bit
integer aborts the cycle at the first interface; the second interface's script
entry stays unconsumed and the store keeps only what was already written. -/
theorem c8_cycle_abort_witness :
    parseTcIfaces [] eraseState
        [some "qdisc htb ffffffff: x", some "", some "ignored"] ["eth0", "eth1"] =
      (eraseState, [some "ignored"]) := by
  have h := c8_cycle_abort.2.2.1 [] eraseState "qdisc htb ffffffff: x" "" [some "ignored"]
    "eth0" ["eth1"] (by decide)
  have hem : (parseDataPD matchQdiscHeader [] "qdisc htb ffffffff: x" "eth0").1 = [] := by
    decide
  rw [hem] at h
  exact h

/-! ## C4: end-to-end parse of one header/stats pair -/

/-- The two-line queue output of the claim: one `qdisc htb 2:` header followed
by one statistics line. -/
def c4Output : String :=
  "qdisc htb 2: parent 1: r2q 10 default 0 direct_packets_stat 42920\n Sent 12548819 bytes 124105 pkt (dropped 13, overlimits 25 requeues 0)"

/-- C4.  Feeding the parser this queue output for interface `"eth0"` emits
exactly one sample, named `"eth0:2:0"` (hexadecimal handle `2` rendered in
decimal, child handle defaulting to zero for queue output), with the four
counters `12548819 / 124105 / 13 / 25`, no user class, and no error; both
pending flags are clear in the final parser state. -/
theorem c4_sampler_end_to_end :
    (parseDataPD matchQdiscHeader [] c4Output "eth0").1 =
        [⟨"eth0:2:0", 12548819, 124105, 13, 25, none⟩] ∧
      (parseDataPD matchQdiscHeader [] c4Output "eth0").2.1 = false ∧
      (parseDataPD matchQdiscHeader [] c4Output "eth0").2.2.haveHeader = false ∧
      (parseDataPD matchQdiscHeader [] c4Output "eth0").2.2.haveData = false := by
  refine ⟨by decide, by decide, by decide, by decide⟩

end TcReader
